import Mathlib

/-!
Shallow embedding of the event-registration core of the `ellarises`
repository: the `POST /register` and `POST /registration/update` route
handlers (identical in `src/index.js` lines 937-1022 and
`src/unnamed/part_000` lines 1053-1138), together with the relational
rows they read and write.

Modelling conventions:
 - HTTP body fields are `Option String` (`none` = absent); the JS
   truthiness test `!x` rejects both `undefined` and the empty string,
   embedded as `fieldMissing`.
 - Timestamps are `Int` milliseconds since the Unix epoch, matching
   `Date` comparison via `valueOf`.  A SQL NULL deadline is
   `Option.none`; the JS expression `new Date(x || 0)` becomes
   `Option.getD x 0`, and the guard `if (registrationDeadline && ...)`
   collapses to the comparison alone because a JS `Date` object is
   always truthy.
 - Counts and capacities are `Int` (JS numbers; the handlers never
   produce non-integers on these columns).
 - The `RegistrationAttendedFlag` column stores the literal strings
   "T" / "F" exactly as the source writes them.
 - A thrown store error caught by the route's `catch` block (HTTP 500)
   is the `storeError` result; it carries the database state at the
   moment of the throw, since the source runs no transaction.
-/

/-- One row of the `EventOccurrence` table, with the columns the
registration routes read or write. -/
structure EventOccurrence where
  Event_ID : String
  EventDateTimeStart : String
  EventRegistrationDeadline : Option Int
  EventCapacity : Int
  EventNumRegistered : Int
  deriving DecidableEq, Repr

/-- One row of the `Registration` table. -/
structure Registration where
  Participant_ID : String
  Event_ID : String
  EventDateTimeStart : String
  RegistrationStatus : String
  RegistrationAttendedFlag : String
  RegistrationDate : Int
  deriving DecidableEq, Repr

/-- The relational store as the two tables the core touches. -/
structure DB where
  occurrences : List EventOccurrence
  registrations : List Registration
  deriving DecidableEq, Repr

/-- JS falsiness of a request-body field: absent (`undefined`) or the
empty string. -/
def fieldMissing (x : Option String) : Bool :=
  match x with
  | none => true
  | some s => s.isEmpty

/-- The knex `where (Event_ID, EventDateTimeStart)` match on the
`EventOccurrence` table. -/
def occMatch (e s : String) (o : EventOccurrence) : Bool :=
  o.Event_ID == e && o.EventDateTimeStart == s

/-- The knex `where (Participant_ID, Event_ID, EventDateTimeStart)`
match on the `Registration` table. -/
def regMatch (p e s : String) (r : Registration) : Bool :=
  r.Participant_ID == p && r.Event_ID == e && r.EventDateTimeStart == s

/-- `knex.first()` on the `EventOccurrence` table. -/
def findOcc (e s : String) (db : DB) : Option EventOccurrence :=
  db.occurrences.find? (occMatch e s)

/-- `knex.first()` on the `Registration` table. -/
def findReg (p e s : String) (db : DB) : Option Registration :=
  db.registrations.find? (regMatch p e s)

/-- The row `POST /register` inserts: status `tbd`, attended-flag `F`,
creation timestamp the current time (the timestamp column is filled by
the schema default, see `insertRegistration`). -/
def newRegRow (p e s : String) (now : Int) : Registration :=
  { Participant_ID := p, Event_ID := e, EventDateTimeStart := s,
    RegistrationStatus := "tbd", RegistrationAttendedFlag := "F",
    RegistrationDate := now }

/-- Modelled from the spec: the `Registration` table's composite
primary key `(Participant_ID, Event_ID, EventDateTimeStart)` and the
creation-timestamp column default live in the database schema, which is
not under `src/`.  Per the spec, "exactly one Registration row per
participant per occurrence" is enforced by the "implicit unique
composite key", a duplicate `INSERT` "fail[s] at the store level with a
generic constraint violation" (a thrown store error), and a fresh row's
"creation timestamp = now".  So: `none` (constraint violation) when a
row with the same key exists, otherwise the appended row. -/
def insertRegistration (p e s : String) (now : Int) (db : DB) : Option DB :=
  if (db.registrations.find? (regMatch p e s)).isSome then
    none
  else
    some { db with registrations := db.registrations ++ [newRegRow p e s now] }

/-- `knex.increment(EventNumRegistered, 1)` on every matching
`EventOccurrence` row. -/
def incrementCount (e s : String) (db : DB) : DB :=
  { db with occurrences :=
      db.occurrences.map fun o =>
        if occMatch e s o then
          { o with EventNumRegistered := o.EventNumRegistered + 1 }
        else o }

/-- `knex.update(EventNumRegistered = n)` on every matching
`EventOccurrence` row. -/
def setCount (e s : String) (n : Int) (db : DB) : DB :=
  { db with occurrences :=
      db.occurrences.map fun o =>
        if occMatch e s o then { o with EventNumRegistered := n } else o }

/-- Outcome of `POST /register` (`src/index.js` lines 937-980), one
constructor per distinct response. -/
inductive RegisterResult where
  | missingFields
  | occurrenceNotFound
  | deadlineExpired
  | capacityExceeded
  | storeError
  | success
  deriving DecidableEq, Repr

/-- The `POST /register` handler, `src/index.js` lines 937-980.
Validation order as in the source: missing fields, occurrence lookup,
deadline, capacity; then the `Registration` insert and the
`EventNumRegistered` increment.  `new Date(deadline || 0)` maps SQL
NULL to the epoch, and the `if (registrationDeadline && ...)` guard is
always entered because a `Date` object is truthy, so the deadline test
is `now > deadline.getD 0`. -/
def register (pid eid start : Option String) (now : Int) (db : DB) :
    RegisterResult × DB :=
  if fieldMissing pid || fieldMissing eid || fieldMissing start then
    (.missingFields, db)
  else
    let p := pid.getD ""
    let e := eid.getD ""
    let s := start.getD ""
    match findOcc e s db with
    | none => (.occurrenceNotFound, db)
    | some ev =>
      if now > ev.EventRegistrationDeadline.getD 0 then
        (.deadlineExpired, db)
      else if ev.EventNumRegistered ≥ ev.EventCapacity then
        (.capacityExceeded, db)
      else
        match insertRegistration p e s now db with
        | none => (.storeError, db)
        | some db1 => (.success, incrementCount e s db1)

/-- Outcome of `POST /registration/update` (`src/index.js` lines
982-1022).  `success` is the `res.redirect('back')` response;
`storeError` is the `catch` block's 500 (reached when the cancel branch
dereferences a missing occurrence row). -/
inductive UpdateResult where
  | missingFields
  | invalidAction
  | storeError
  | success
  deriving DecidableEq, Repr

/-- The `(RegistrationStatus, RegistrationAttendedFlag)` pair the
source's chained conditional assigns to `updateFields`, `none` for an
unrecognized (or absent) action. -/
def updateFieldsFor (action : Option String) : Option (String × String) :=
  if action == some "attended" then some ("attended", "T")
  else if action == some "absent" then some ("no-show", "F")
  else if action == some "cancel" then some ("cancelled", "F")
  else none

/-- The `knex.update(updateFields)` step: rewrite status and flag on
every `Registration` row matching the three identifiers. -/
def applyUpdate (p e s st fl : String) (regs : List Registration) :
    List Registration :=
  regs.map fun r =>
    if regMatch p e s r then
      { r with RegistrationStatus := st, RegistrationAttendedFlag := fl }
    else r

/-- The `POST /registration/update` handler, `src/index.js` lines
982-1022.  Reads the prior row (`existingReg`), updates every matching
`Registration` row, and — only for `action = cancel` with an existing,
not-already-cancelled row — rewrites the occurrence's count to
`Math.max(0, count - 1)`.  If that occurrence row is absent the source
dereferences `undefined` and the `catch` block answers 500, with the
registration update already persisted (no transaction). -/
def updateRegistration (pid eid start action : Option String) (db : DB) :
    UpdateResult × DB :=
  if fieldMissing pid || fieldMissing eid || fieldMissing start then
    (.missingFields, db)
  else
    match updateFieldsFor action with
    | none => (.invalidAction, db)
    | some (st, fl) =>
      let p := pid.getD ""
      let e := eid.getD ""
      let s := start.getD ""
      let existingReg := findReg p e s db
      let db1 : DB :=
        { db with registrations := applyUpdate p e s st fl db.registrations }
      if action == some "cancel" then
        match existingReg with
        | some r =>
          if r.RegistrationStatus ≠ "cancelled" then
            match findOcc e s db1 with
            | none => (.storeError, db1)
            | some ev =>
              (.success, setCount e s (max 0 (ev.EventNumRegistered - 1)) db1)
          else (.success, db1)
        | none => (.success, db1)
      else (.success, db1)

/-! ### Invariants over the data model -/

/-- A status that counts toward registered-count: any member of the
status enumeration other than `cancelled`. -/
def activeStatus (st : String) : Bool :=
  st == "tbd" || st == "attended" || st == "no-show"

/-- Whether registration row `r` counts toward the active total of the
occurrence `(e, s)`. -/
def regForOcc (e s : String) (r : Registration) : Bool :=
  r.Event_ID == e && r.EventDateTimeStart == s &&
    activeStatus r.RegistrationStatus

/-- Number of non-cancelled registrations recorded for the occurrence
`(e, s)`. -/
def activeCount (e s : String) (regs : List Registration) : Nat :=
  regs.countP (regForOcc e s)

/-- The central denormalization invariant: every occurrence's
registered-count equals the number of its non-cancelled
registrations. -/
def CountInv (db : DB) : Prop :=
  ∀ occ ∈ db.occurrences,
    occ.EventNumRegistered =
      (activeCount occ.Event_ID occ.EventDateTimeStart db.registrations : Int)

/-- Two registration rows carrying the same composite key. -/
def sameKey (a b : Registration) : Prop :=
  a.Participant_ID = b.Participant_ID ∧ a.Event_ID = b.Event_ID ∧
    a.EventDateTimeStart = b.EventDateTimeStart

/-- A status value drawn from the data model's enumeration. -/
def statusOK (st : String) : Bool :=
  st == "tbd" || st == "attended" || st == "no-show" || st == "cancelled"

/-- Well-formed registration table: every status is in the enumeration,
and no two rows share the composite primary key. -/
def RegsWF (db : DB) : Prop :=
  (∀ r ∈ db.registrations, statusOK r.RegistrationStatus = true) ∧
  db.registrations.Pairwise fun a b => ¬ sameKey a b

/-- The status / attended-flag coupling: the flag stores `"T"` exactly
on status `"attended"`. -/
def FlagInv (db : DB) : Prop :=
  ∀ r ∈ db.registrations,
    (r.RegistrationAttendedFlag = "T" ↔ r.RegistrationStatus = "attended")

/-- No registration row matching `(p, e, s)` is already cancelled. -/
def NoCancelledMatch (p e s : String) (db : DB) : Prop :=
  ∀ r ∈ db.registrations, regMatch p e s r = true →
    r.RegistrationStatus ≠ "cancelled"

/-! ### Basic facts about the matchers -/

theorem fieldMissing_some_iff (x : String) :
    fieldMissing (some x) = false ↔ x ≠ "" := by
  simp only [fieldMissing, Bool.eq_false_iff, ne_eq]
  exact not_congr (String.isEmpty_iff x)

theorem regMatch_iff (p e s : String) (r : Registration) :
    regMatch p e s r = true ↔
      r.Participant_ID = p ∧ r.Event_ID = e ∧ r.EventDateTimeStart = s := by
  simp [regMatch, and_assoc]

theorem occMatch_iff (e s : String) (o : EventOccurrence) :
    occMatch e s o = true ↔ o.Event_ID = e ∧ o.EventDateTimeStart = s := by
  simp [occMatch]

theorem regMatch_update_fields (st fl p' e' s' : String)
    (r : Registration) :
    regMatch p' e' s'
        { r with RegistrationStatus := st, RegistrationAttendedFlag := fl } =
      regMatch p' e' s' r := rfl

theorem regForOcc_update_fields (e' s' st fl : String) (r : Registration) :
    regForOcc e' s'
        { r with RegistrationStatus := st, RegistrationAttendedFlag := fl } =
      (r.Event_ID == e' && r.EventDateTimeStart == s' && activeStatus st) :=
  rfl

/-! ### Counting lemmas -/

theorem activeStatus_tbd : activeStatus "tbd" = true := rfl

theorem activeStatus_cancelled : activeStatus "cancelled" = false := rfl

theorem activeStatus_of_statusOK (st : String) (hok : statusOK st = true)
    (hnc : st ≠ "cancelled") : activeStatus st = true := by
  simp only [statusOK, Bool.or_eq_true, beq_iff_eq] at hok
  simp only [activeStatus, Bool.or_eq_true, beq_iff_eq]
  tauto

theorem countP_eq_of_agree {α : Type} (p q : α → Bool) (l : List α)
    (h : ∀ a ∈ l, p a = q a) : l.countP p = l.countP q := by
  induction l with
  | nil => rfl
  | cons a t ih =>
    simp only [List.countP_cons, h a (by simp)]
    rw [ih fun x hx => h x (by simp [hx])]

theorem activeCount_append_one (e' s' : String) (regs : List Registration)
    (r : Registration) :
    activeCount e' s' (regs ++ [r]) =
      activeCount e' s' regs + (if regForOcc e' s' r then 1 else 0) := by
  simp [activeCount, List.countP_append, List.countP_cons]

theorem activeCount_applyUpdate_of_active (p e s st fl e' s' : String)
    (regs : List Registration) (hst : activeStatus st = true)
    (hprior : ∀ r ∈ regs, regMatch p e s r = true →
      activeStatus r.RegistrationStatus = true) :
    activeCount e' s' (applyUpdate p e s st fl regs) =
      activeCount e' s' regs := by
  unfold activeCount applyUpdate
  rw [List.countP_map]
  apply countP_eq_of_agree
  intro r hr
  by_cases hm : regMatch p e s r = true
  · simp [Function.comp, hm, regForOcc, hst, hprior r hr hm]
  · simp [Function.comp, hm]

theorem sameKey_of_regMatch (p e s : String) (a b : Registration)
    (ha : regMatch p e s a = true) (hb : regMatch p e s b = true) :
    sameKey a b := by
  rw [regMatch_iff] at ha hb
  exact ⟨ha.1.trans hb.1.symm, ha.2.1.trans hb.2.1.symm,
    ha.2.2.trans hb.2.2.symm⟩

theorem countP_applyUpdate_single (p e s st fl : String)
    (q : Registration → Bool) (regs : List Registration) (r0 : Registration)
    (huniq : regs.Pairwise fun a b => ¬ sameKey a b)
    (hfind : regs.find? (regMatch p e s) = some r0) :
    (applyUpdate p e s st fl regs).countP q + (if q r0 then 1 else 0) =
      regs.countP q +
        (if q { r0 with RegistrationStatus := st,
                        RegistrationAttendedFlag := fl } then 1 else 0) := by
  induction regs with
  | nil => simp at hfind
  | cons r l ih =>
    rcases List.pairwise_cons.mp huniq with ⟨hhead, htail⟩
    by_cases hm : regMatch p e s r = true
    · rw [List.find?_cons_of_pos l hm] at hfind
      obtain rfl : r = r0 := by exact Option.some.inj hfind
      have hnol : ∀ x ∈ l, regMatch p e s x = false := by
        intro x hx
        by_contra hmx
        exact hhead x hx
          (sameKey_of_regMatch p e s r x hm (by simpa using hmx))
      have hid : applyUpdate p e s st fl l = l := by
        unfold applyUpdate
        have h1 : (l.map fun x =>
            if regMatch p e s x then
              { x with RegistrationStatus := st,
                       RegistrationAttendedFlag := fl }
            else x) = l.map id :=
          List.map_congr_left fun x hx => by simp [hnol x hx]
        rw [h1, List.map_id]
      unfold applyUpdate
      simp only [List.map_cons, hm, if_pos]
      have : (l.map fun x =>
          if regMatch p e s x then
            { x with RegistrationStatus := st,
                     RegistrationAttendedFlag := fl }
          else x) = l := hid
      rw [this]
      simp only [List.countP_cons]
      omega
    · rw [List.find?_cons_of_neg l (by simpa using hm)] at hfind
      have hstep := ih htail hfind
      unfold applyUpdate at hstep ⊢
      simp only [List.map_cons, hm, if_neg, Bool.false_eq_true,
        not_false_iff, List.countP_cons]
      simp only [Bool.not_eq_true] at hm
      simp [hm] at hstep ⊢
      omega

theorem activeCount_applyUpdate_cancel (p e s e' s' : String)
    (regs : List Registration) (r0 : Registration)
    (huniq : regs.Pairwise fun a b => ¬ sameKey a b)
    (hfind : regs.find? (regMatch p e s) = some r0) :
    activeCount e' s' (applyUpdate p e s "cancelled" "F" regs) +
      (if regForOcc e' s' r0 then 1 else 0) = activeCount e' s' regs := by
  have h := countP_applyUpdate_single p e s "cancelled" "F" (regForOcc e' s')
    regs r0 huniq hfind
  have hupd : regForOcc e' s'
      { r0 with RegistrationStatus := "cancelled",
                RegistrationAttendedFlag := "F" } = false := by
    rw [regForOcc_update_fields]
    simp [activeStatus_cancelled]
  rw [hupd] at h
  simpa [activeCount] using h

/-! ### How the lookups commute with the writes -/

theorem find?_applyUpdate (p e s st fl : String) (regs : List Registration) :
    (applyUpdate p e s st fl regs).find? (regMatch p e s) =
      (regs.find? (regMatch p e s)).map fun r =>
        { r with RegistrationStatus := st,
                 RegistrationAttendedFlag := fl } := by
  induction regs with
  | nil => rfl
  | cons r l ih =>
    by_cases hm : regMatch p e s r = true
    · have hm2 : regMatch p e s
          { r with RegistrationStatus := st,
                   RegistrationAttendedFlag := fl } = true := by
        rw [regMatch_update_fields]
        exact hm
      unfold applyUpdate
      rw [List.map_cons, if_pos hm, List.find?_cons_of_pos _ hm2,
        List.find?_cons_of_pos l hm]
      rfl
    · unfold applyUpdate at ih ⊢
      rw [List.map_cons, if_neg hm, List.find?_cons_of_neg _ hm,
        List.find?_cons_of_neg l hm]
      exact ih

theorem find?_occ_update (e s : String) (f : EventOccurrence → EventOccurrence)
    (hkey : ∀ o, occMatch e s (f o) = occMatch e s o)
    (l : List EventOccurrence) :
    (l.map fun o => if occMatch e s o then f o else o).find? (occMatch e s) =
      (l.find? (occMatch e s)).map f := by
  induction l with
  | nil => rfl
  | cons o t ih =>
    by_cases hm : occMatch e s o = true
    · rw [List.map_cons, if_pos hm, List.find?_cons_of_pos _ ((hkey o).trans hm),
        List.find?_cons_of_pos t hm]
      rfl
    · rw [List.map_cons, if_neg hm, List.find?_cons_of_neg _ hm,
        List.find?_cons_of_neg t hm]
      exact ih

theorem findOcc_setCount (e s : String) (n : Int) (db : DB) :
    findOcc e s (setCount e s n db) =
      (findOcc e s db).map fun o => { o with EventNumRegistered := n } := by
  unfold findOcc setCount
  exact find?_occ_update e s (fun o => { o with EventNumRegistered := n })
    (fun o => rfl) db.occurrences

theorem findOcc_incrementCount (e s : String) (db : DB) :
    findOcc e s (incrementCount e s db) =
      (findOcc e s db).map fun o =>
        { o with EventNumRegistered := o.EventNumRegistered + 1 } := by
  unfold findOcc incrementCount
  exact find?_occ_update e s
    (fun o => { o with EventNumRegistered := o.EventNumRegistered + 1 })
    (fun o => rfl) db.occurrences

theorem findReg_append_new (p e s : String) (now : Int)
    (regs : List Registration)
    (hnone : regs.find? (regMatch p e s) = none) :
    (regs ++ [newRegRow p e s now]).find? (regMatch p e s) =
      some (newRegRow p e s now) := by
  rw [List.find?_append, hnone]
  simp [List.find?, newRegRow, regMatch]

/-! ### Characterizations of the handlers -/

theorem register_success_eq (p e s : String) (now : Int) (db : DB)
    (ev : EventOccurrence)
    (hp : p ≠ "") (he : e ≠ "") (hs : s ≠ "")
    (hocc : findOcc e s db = some ev)
    (hdl : ¬ now > ev.EventRegistrationDeadline.getD 0)
    (hcap : ¬ ev.EventNumRegistered ≥ ev.EventCapacity)
    (hdup : findReg p e s db = none) :
    register (some p) (some e) (some s) now db =
      (.success, incrementCount e s
        { db with registrations :=
            db.registrations ++ [newRegRow p e s now] }) := by
  have hp' := (fieldMissing_some_iff p).mpr hp
  have he' := (fieldMissing_some_iff e).mpr he
  have hs' := (fieldMissing_some_iff s).mpr hs
  unfold findReg at hdup
  simp only [register, hp', he', hs', Bool.or_self, Bool.or_false,
    Bool.false_eq_true, if_false, Option.getD_some, hocc, if_neg hdl,
    if_neg hcap, insertRegistration, hdup, Option.isSome_none]

theorem register_success_inv (pid eid start : Option String) (now : Int)
    (db db' : DB)
    (h : register pid eid start now db = (.success, db')) :
    findReg (pid.getD "") (eid.getD "") (start.getD "") db = none ∧
    db' = incrementCount (eid.getD "") (start.getD "")
      { db with registrations := db.registrations ++
          [newRegRow (pid.getD "") (eid.getD "") (start.getD "") now] } := by
  simp only [register] at h
  split at h
  · simp at h
  · split at h
    · simp at h
    · split at h
      · simp at h
      · split at h
        · simp at h
        · split at h
          · simp at h
          · rename_i db1 hins
            unfold insertRegistration at hins
            split at hins
            · simp at hins
            · rename_i hdup
              obtain rfl : _ = db1 := Option.some.inj hins
              constructor
              · unfold findReg
                exact Option.not_isSome_iff_eq_none.mp hdup
              · have h2 := congrArg Prod.snd h
                simpa using h2.symm

theorem updateFieldsFor_attended :
    updateFieldsFor (some "attended") = some ("attended", "T") := by decide

theorem updateFieldsFor_absent :
    updateFieldsFor (some "absent") = some ("no-show", "F") := by decide

theorem updateFieldsFor_cancel :
    updateFieldsFor (some "cancel") = some ("cancelled", "F") := by decide

theorem findOcc_reg_update (e s : String) (db : DB)
    (regs : List Registration) :
    findOcc e s { db with registrations := regs } = findOcc e s db := rfl

theorem cancel_beq_true :
    ((some "cancel" : Option String) == some "cancel") = true := by decide

theorem update_missing_eq (pid eid start action : Option String) (db : DB)
    (h : (fieldMissing pid || fieldMissing eid || fieldMissing start) = true) :
    updateRegistration pid eid start action db = (.missingFields, db) := by
  simp only [updateRegistration, h, if_true]

theorem update_invalidAction_eq (pid eid start action : Option String)
    (db : DB)
    (hp : fieldMissing pid = false) (he : fieldMissing eid = false)
    (hs : fieldMissing start = false)
    (hact : updateFieldsFor action = none) :
    updateRegistration pid eid start action db = (.invalidAction, db) := by
  simp only [updateRegistration, hp, he, hs, Bool.or_self, Bool.or_false,
    Bool.false_eq_true, if_false, hact]

theorem update_noncancel_eq (pid eid start action : Option String) (db : DB)
    (st fl : String)
    (hp : fieldMissing pid = false) (he : fieldMissing eid = false)
    (hs : fieldMissing start = false)
    (hf : updateFieldsFor action = some (st, fl))
    (hnc : (action == some "cancel") = false) :
    updateRegistration pid eid start action db =
      (.success,
        { db with registrations := applyUpdate (pid.getD "") (eid.getD "") (start.getD "") st fl db.registrations }) := by
  simp only [updateRegistration, hp, he, hs, Bool.or_self, Bool.or_false,
    Bool.false_eq_true, if_false, hf, hnc]

theorem update_cancel_notfound_eq (p e s : String) (db : DB)
    (hp : p ≠ "") (he : e ≠ "") (hs : s ≠ "")
    (hreg : findReg p e s db = none) :
    updateRegistration (some p) (some e) (some s) (some "cancel") db =
      (.success,
        { db with registrations := applyUpdate p e s "cancelled" "F" db.registrations }) := by
  have hp' := (fieldMissing_some_iff p).mpr hp
  have he' := (fieldMissing_some_iff e).mpr he
  have hs' := (fieldMissing_some_iff s).mpr hs
  simp only [updateRegistration, hp', he', hs', Bool.or_self, Bool.or_false,
    Bool.false_eq_true, if_false, updateFieldsFor_cancel, Option.getD_some,
    hreg]
  rw [if_pos cancel_beq_true]

theorem update_cancel_cancelled_eq (p e s : String) (db : DB)
    (r : Registration)
    (hp : p ≠ "") (he : e ≠ "") (hs : s ≠ "")
    (hreg : findReg p e s db = some r)
    (hst : r.RegistrationStatus = "cancelled") :
    updateRegistration (some p) (some e) (some s) (some "cancel") db =
      (.success,
        { db with registrations := applyUpdate p e s "cancelled" "F" db.registrations }) := by
  have hp' := (fieldMissing_some_iff p).mpr hp
  have he' := (fieldMissing_some_iff e).mpr he
  have hs' := (fieldMissing_some_iff s).mpr hs
  simp only [updateRegistration, hp', he', hs', Bool.or_self, Bool.or_false,
    Bool.false_eq_true, if_false, updateFieldsFor_cancel, Option.getD_some,
    hreg, if_neg (not_not_intro hst)]
  rw [if_pos cancel_beq_true]

theorem update_cancel_active_eq (p e s : String) (db : DB)
    (r : Registration) (ev : EventOccurrence)
    (hp : p ≠ "") (he : e ≠ "") (hs : s ≠ "")
    (hreg : findReg p e s db = some r)
    (hst : r.RegistrationStatus ≠ "cancelled")
    (hocc : findOcc e s db = some ev) :
    updateRegistration (some p) (some e) (some s) (some "cancel") db =
      (.success, setCount e s (max 0 (ev.EventNumRegistered - 1))
        { db with registrations := applyUpdate p e s "cancelled" "F" db.registrations }) := by
  have hp' := (fieldMissing_some_iff p).mpr hp
  have he' := (fieldMissing_some_iff e).mpr he
  have hs' := (fieldMissing_some_iff s).mpr hs
  simp only [updateRegistration, hp', he', hs', Bool.or_self, Bool.or_false,
    Bool.false_eq_true, if_false, updateFieldsFor_cancel, Option.getD_some,
    hreg, if_pos hst, findOcc_reg_update, hocc]
  rw [if_pos cancel_beq_true]

theorem update_cancel_crash_eq (p e s : String) (db : DB) (r : Registration)
    (hp : p ≠ "") (he : e ≠ "") (hs : s ≠ "")
    (hreg : findReg p e s db = some r)
    (hst : r.RegistrationStatus ≠ "cancelled")
    (hocc : findOcc e s db = none) :
    updateRegistration (some p) (some e) (some s) (some "cancel") db =
      (.storeError,
        { db with registrations := applyUpdate p e s "cancelled" "F" db.registrations }) := by
  have hp' := (fieldMissing_some_iff p).mpr hp
  have he' := (fieldMissing_some_iff e).mpr he
  have hs' := (fieldMissing_some_iff s).mpr hs
  simp only [updateRegistration, hp', he', hs', Bool.or_self, Bool.or_false,
    Bool.false_eq_true, if_false, updateFieldsFor_cancel, Option.getD_some,
    hreg, if_pos hst, findOcc_reg_update, hocc]
  rw [if_pos cancel_beq_true]

/-! ### Preservation of the count invariant -/

theorem applyUpdate_of_no_match (p e s st fl : String)
    (regs : List Registration)
    (h : regs.find? (regMatch p e s) = none) :
    applyUpdate p e s st fl regs = regs := by
  unfold applyUpdate
  have h1 : (regs.map fun x =>
      if regMatch p e s x then
        { x with RegistrationStatus := st, RegistrationAttendedFlag := fl }
      else x) = regs.map id :=
    List.map_congr_left fun x hx => by
      simp [List.find?_eq_none.mp h x hx]
  rw [h1, List.map_id]

theorem countInv_register (pid eid start : Option String) (now : Int)
    (db db' : DB) (hinv : CountInv db)
    (h : register pid eid start now db = (.success, db')) : CountInv db' := by
  obtain ⟨hdup, rfl⟩ := register_success_inv pid eid start now db db' h
  unfold CountInv incrementCount
  simp only [List.mem_map]
  rintro occ' ⟨occ, hocc, rfl⟩
  have hbase := hinv occ hocc
  by_cases hm : occMatch (eid.getD "") (start.getD "") occ = true
  · rw [if_pos hm]
    have hkey := (occMatch_iff _ _ occ).mp hm
    dsimp only
    rw [activeCount_append_one]
    have hrow : regForOcc occ.Event_ID occ.EventDateTimeStart
        (newRegRow (pid.getD "") (eid.getD "") (start.getD "") now) = true := by
      simp [regForOcc, newRegRow, activeStatus, hkey.1, hkey.2]
    rw [hrow]
    simp only [if_pos (rfl : true = true)]
    push_cast
    omega
  · rw [if_neg hm]
    rw [activeCount_append_one]
    have hne : ¬(occ.Event_ID = eid.getD "" ∧
        occ.EventDateTimeStart = start.getD "") :=
      fun hc => hm ((occMatch_iff _ _ occ).mpr hc)
    have hrow : regForOcc occ.Event_ID occ.EventDateTimeStart
        (newRegRow (pid.getD "") (eid.getD "") (start.getD "") now) = false := by
      by_contra hb
      rw [Bool.not_eq_false] at hb
      simp only [regForOcc, newRegRow, Bool.and_eq_true, beq_iff_eq] at hb
      exact hne ⟨hb.1.1.symm, hb.1.2.symm⟩
    rw [hrow]
    simpa using hbase

theorem countInv_update (pid eid start action : Option String)
    (db db' : DB) (hwf : RegsWF db) (hinv : CountInv db)
    (hside : action = some "cancel" ∨
      NoCancelledMatch (pid.getD "") (eid.getD "") (start.getD "") db)
    (h : updateRegistration pid eid start action db = (.success, db')) :
    CountInv db' := by
  by_cases hmiss :
      (fieldMissing pid || fieldMissing eid || fieldMissing start) = true
  · rw [update_missing_eq pid eid start action db hmiss] at h
    simp at h
  · have hp : fieldMissing pid = false := by
      by_contra hx
      rw [Bool.not_eq_false] at hx
      exact hmiss (by simp [hx])
    have he : fieldMissing eid = false := by
      by_contra hx
      rw [Bool.not_eq_false] at hx
      exact hmiss (by simp [hx])
    have hs : fieldMissing start = false := by
      by_contra hx
      rw [Bool.not_eq_false] at hx
      exact hmiss (by simp [hx])
    obtain ⟨p, rfl⟩ : ∃ p, pid = some p :=
      Option.ne_none_iff_exists'.mp fun hn => by
        rw [hn] at hp
        simp [fieldMissing] at hp
    obtain ⟨e, rfl⟩ : ∃ e, eid = some e :=
      Option.ne_none_iff_exists'.mp fun hn => by
        rw [hn] at he
        simp [fieldMissing] at he
    obtain ⟨s, rfl⟩ : ∃ s, start = some s :=
      Option.ne_none_iff_exists'.mp fun hn => by
        rw [hn] at hs
        simp [fieldMissing] at hs
    have hp2 : p ≠ "" := (fieldMissing_some_iff p).mp hp
    have he2 : e ≠ "" := (fieldMissing_some_iff e).mp he
    have hs2 : s ≠ "" := (fieldMissing_some_iff s).mp hs
    simp only [Option.getD_some] at hside
    by_cases hcan : action = some "cancel"
    · subst hcan
      cases hfind : findReg p e s db with
      | none =>
        rw [update_cancel_notfound_eq p e s db hp2 he2 hs2 hfind] at h
        injection h with h1 h2
        subst h2
        have hfind' : db.registrations.find? (regMatch p e s) = none := hfind
        rw [applyUpdate_of_no_match p e s "cancelled" "F" db.registrations
          hfind']
        exact hinv
      | some r =>
        have hfind' : db.registrations.find? (regMatch p e s) = some r := hfind
        have hrmem : r ∈ db.registrations := List.mem_of_find?_eq_some hfind'
        have hrmatch : regMatch p e s r = true := List.find?_some hfind'
        have hrkey := (regMatch_iff p e s r).mp hrmatch
        by_cases hc : r.RegistrationStatus = "cancelled"
        · rw [update_cancel_cancelled_eq p e s db r hp2 he2 hs2 hfind hc] at h
          injection h with h1 h2
          subst h2
          intro occ hocc2
          have hb := hinv occ hocc2
          have hcc := activeCount_applyUpdate_cancel p e s occ.Event_ID
            occ.EventDateTimeStart db.registrations r hwf.2 hfind'
          have hro : regForOcc occ.Event_ID occ.EventDateTimeStart r
              = false := by
            simp [regForOcc, hc, activeStatus]
          rw [hro] at hcc
          simp at hcc
          dsimp only
          omega
        · cases hocc : findOcc e s db with
          | none =>
            rw [update_cancel_crash_eq p e s db r hp2 he2 hs2 hfind hc
              hocc] at h
            simp at h
          | some ev =>
            rw [update_cancel_active_eq p e s db r ev hp2 he2 hs2 hfind hc
              hocc] at h
            injection h with h1 h2
            subst h2
            have hactive : activeStatus r.RegistrationStatus = true :=
              activeStatus_of_statusOK _ (hwf.1 r hrmem) hc
            have hocc' : db.occurrences.find? (occMatch e s) = some ev := hocc
            have hevmem : ev ∈ db.occurrences :=
              List.mem_of_find?_eq_some hocc'
            have hevmatch := (occMatch_iff e s ev).mp (List.find?_some hocc')
            have hbev := hinv ev hevmem
            rw [hevmatch.1, hevmatch.2] at hbev
            have hpos : 0 < activeCount e s db.registrations := by
              refine List.countP_pos_iff.mpr ⟨r, hrmem, ?_⟩
              simp [regForOcc, hrkey.2.1, hrkey.2.2, hactive]
            unfold CountInv setCount
            simp only [List.mem_map]
            rintro occ' ⟨occ, hocc2, rfl⟩
            have hb := hinv occ hocc2
            have hcc := activeCount_applyUpdate_cancel p e s occ.Event_ID
              occ.EventDateTimeStart db.registrations r hwf.2 hfind'
            by_cases hm : occMatch e s occ = true
            · rw [if_pos hm]
              dsimp only
              have hkey := (occMatch_iff e s occ).mp hm
              have hro : regForOcc occ.Event_ID occ.EventDateTimeStart r
                  = true := by
                simp [regForOcc, hrkey.2.1, hrkey.2.2, hkey.1, hkey.2,
                  hactive]
              rw [hro] at hcc
              simp only [if_pos (rfl : true = true), if_true] at hcc
              rw [hkey.1, hkey.2] at hb hcc ⊢
              have h0 : (0 : Int) ≤ ev.EventNumRegistered - 1 := by omega
              rw [max_eq_right h0]
              omega
            · rw [if_neg hm]
              have hne : ¬(occ.Event_ID = e ∧ occ.EventDateTimeStart = s) :=
                fun hcx => hm ((occMatch_iff e s occ).mpr hcx)
              have hro : regForOcc occ.Event_ID occ.EventDateTimeStart r
                  = false := by
                by_contra hbx
                rw [Bool.not_eq_false] at hbx
                simp only [regForOcc, Bool.and_eq_true, beq_iff_eq] at hbx
                exact hne ⟨hbx.1.1.symm.trans hrkey.2.1,
                  hbx.1.2.symm.trans hrkey.2.2⟩
              rw [hro] at hcc
              simp at hcc
              omega
    · have hside2 : NoCancelledMatch p e s db := hside.resolve_left hcan
      cases huf : updateFieldsFor action with
      | none =>
        rw [update_invalidAction_eq (some p) (some e) (some s) action db
          hp he hs huf] at h
        simp at h
      | some stfl =>
        obtain ⟨st, fl⟩ := stfl
        have hnc : (action == some "cancel") = false :=
          beq_eq_false_iff_ne.mpr hcan
        rw [update_noncancel_eq (some p) (some e) (some s) action db st fl
          hp he hs huf hnc] at h
        injection h with h1 h2
        subst h2
        have hst : activeStatus st = true := by
          unfold updateFieldsFor at huf
          split at huf
          · simp only [Option.some.injEq, Prod.mk.injEq] at huf
            obtain ⟨rfl, rfl⟩ := huf
            decide
          · split at huf
            · simp only [Option.some.injEq, Prod.mk.injEq] at huf
              obtain ⟨rfl, rfl⟩ := huf
              decide
            · split at huf
              · rename_i hx
                rw [hx] at hnc
                simp at hnc
              · simp at huf
        intro occ hocc2
        have hb := hinv occ hocc2
        dsimp only
        simp only [Option.getD_some]
        rw [activeCount_applyUpdate_of_active p e s st fl occ.Event_ID
          occ.EventDateTimeStart db.registrations hst
          (fun r2 hr2 hm2 =>
            activeStatus_of_statusOK _ (hwf.1 r2 hr2) (hside2 r2 hr2 hm2))]
        exact hb

/-! ### Decidability of the invariants -/

instance (a b : Registration) : Decidable (sameKey a b) := by
  unfold sameKey
  infer_instance

instance (db : DB) : Decidable (CountInv db) := by
  unfold CountInv
  infer_instance

instance (db : DB) : Decidable (RegsWF db) := by
  unfold RegsWF
  infer_instance

instance (db : DB) : Decidable (FlagInv db) := by
  unfold FlagInv
  infer_instance

instance (p e s : String) (db : DB) : Decidable (NoCancelledMatch p e s db) := by
  unfold NoCancelledMatch
  infer_instance

/-! ### Concrete fixtures -/

/-- An open occurrence: capacity 2, no one registered, deadline ahead. -/
def occOpen : EventOccurrence :=
  { Event_ID := "e1", EventDateTimeStart := "s1",
    EventRegistrationDeadline := some 1000, EventCapacity := 2,
    EventNumRegistered := 0 }

/-- Store with the open occurrence and no registrations. -/
def dbOpen : DB := { occurrences := [occOpen], registrations := [] }

/-- An occurrence with one active registration already counted. -/
def occDup : EventOccurrence :=
  { Event_ID := "e1", EventDateTimeStart := "s1",
    EventRegistrationDeadline := some 1000, EventCapacity := 5,
    EventNumRegistered := 1 }

/-- The registration row already held by participant `p1`. -/
def regDup : Registration :=
  { Participant_ID := "p1", Event_ID := "e1", EventDateTimeStart := "s1",
    RegistrationStatus := "tbd", RegistrationAttendedFlag := "F",
    RegistrationDate := 0 }

/-- Store with `occDup` and `regDup`: count 1 equals one active row. -/
def dbDup : DB := { occurrences := [occDup], registrations := [regDup] }

/-! ### The claims -/

/-- An occurrence whose registration deadline is SQL NULL (absent). -/
def occNullDeadline : EventOccurrence :=
  { Event_ID := "e1", EventDateTimeStart := "s1",
    EventRegistrationDeadline := none, EventCapacity := 10,
    EventNumRegistered := 0 }

/-- Store holding only the NULL-deadline occurrence, capacity wide open. -/
def dbNullDeadline : DB :=
  { occurrences := [occNullDeadline], registrations := [] }

/-- C1: the claim says a NULL registration deadline is treated as "no
deadline, never expired".  The code instead computes
`new Date(deadline || 0)`, coercing NULL to the epoch, and the guard
`if (registrationDeadline && ...)` is always entered because a `Date`
object is truthy — so with a NULL deadline and any current time after
the epoch (here 2023-11-14 in ms), `POST /register` answers
"Registration deadline has passed" and inserts nothing, despite ample
capacity.  This theorem evaluates the embedded handler at that failing
input. -/
theorem c1_null_deadline_rejected :
    register (some "p1") (some "e1") (some "s1") 1700000000000
      dbNullDeadline = (.deadlineExpired, dbNullDeadline) := by decide

/-- Occurrence for the C2 counterexample: nobody counted. -/
def occC2 : EventOccurrence :=
  { Event_ID := "e1", EventDateTimeStart := "s1",
    EventRegistrationDeadline := some 1000, EventCapacity := 5,
    EventNumRegistered := 0 }

/-- A cancelled registration for that occurrence. -/
def regCancelled : Registration :=
  { Participant_ID := "p1", Event_ID := "e1", EventDateTimeStart := "s1",
    RegistrationStatus := "cancelled", RegistrationAttendedFlag := "F",
    RegistrationDate := 0 }

/-- Store with one cancelled registration; count 0 is correct. -/
def dbC2 : DB := { occurrences := [occC2], registrations := [regCancelled] }

/-- C2 counterexample: the central invariant is NOT preserved by every
successful `updateRegistration`.  Re-activating a cancelled registration
(action "attended") succeeds, turns the row active again, but never
re-increments the occurrence's count: starting from a well-formed state
satisfying the invariant (count 0, one cancelled row), the update
succeeds and afterwards count 0 ≠ 1 active row. -/
theorem c2_reactivation_breaks_invariant :
    RegsWF dbC2 ∧ CountInv dbC2 ∧
    (updateRegistration (some "p1") (some "e1") (some "s1")
        (some "attended") dbC2).1 = .success ∧
    ¬ CountInv (updateRegistration (some "p1") (some "e1") (some "s1")
        (some "attended") dbC2).2 := by decide

/-- C2 (amended): over a well-formed store (statuses from the
enumeration, composite key unique) satisfying the count invariant, the
invariant is preserved by every successful `register`, and by every
successful `updateRegistration` whose action is "cancel" or whose
matched registration is not already cancelled (re-activating a
cancelled row via "attended"/"absent" is the one breaking case). -/
theorem c2_invariant_preservation (pid eid start action : Option String)
    (now : Int) (db : DB) (hwf : RegsWF db) (hinv : CountInv db) :
    (∀ db', register pid eid start now db = (.success, db') →
      CountInv db') ∧
    (∀ db', updateRegistration pid eid start action db = (.success, db') →
      action = some "cancel" ∨
        NoCancelledMatch (pid.getD "") (eid.getD "") (start.getD "") db →
      CountInv db') :=
  ⟨fun db' h => countInv_register pid eid start now db db' hinv h,
   fun db' h hside =>
     countInv_update pid eid start action db db' hwf hinv hside h⟩

/-- Witness for C2 (amended) at a concrete store: a fresh registration
by `p2` and a first cancellation by `p1`, both preserving the
invariant. -/
theorem c2_invariant_preservation_witness :
    RegsWF dbDup ∧ CountInv dbDup ∧
    CountInv (register (some "p2") (some "e1") (some "s1") 500 dbDup).2 ∧
    CountInv (updateRegistration (some "p1") (some "e1") (some "s1")
      (some "cancel") dbDup).2 := by
  refine ⟨by decide, by decide, ?_, ?_⟩
  · exact (c2_invariant_preservation (some "p2") (some "e1") (some "s1")
      none 500 dbDup (by decide) (by decide)).1 _ (by decide)
  · exact (c2_invariant_preservation (some "p1") (some "e1") (some "s1")
      (some "cancel") 500 dbDup (by decide) (by decide)).2 _ (by decide)
      (Or.inl rfl)

/-- C3: once an occurrence's registered-count has reached its capacity,
any further `register` before the deadline fails with the
capacity-exceeded response and leaves the store (hence the count)
unchanged. -/
theorem c3_capacity_exceeded (p e s : String) (now : Int) (db : DB)
    (ev : EventOccurrence)
    (hp : p ≠ "") (he : e ≠ "") (hs : s ≠ "")
    (hocc : findOcc e s db = some ev)
    (hdl : ¬ now > ev.EventRegistrationDeadline.getD 0)
    (hfull : ev.EventNumRegistered = ev.EventCapacity) :
    register (some p) (some e) (some s) now db = (.capacityExceeded, db) := by
  have hp' := (fieldMissing_some_iff p).mpr hp
  have he' := (fieldMissing_some_iff e).mpr he
  have hs' := (fieldMissing_some_iff s).mpr hs
  simp only [register, hp', he', hs', Bool.or_self, Bool.or_false,
    Bool.false_eq_true, if_false, Option.getD_some, hocc, if_neg hdl,
    if_pos hfull.ge]

/-- State after `p1` registers into `dbOpen`. -/
def dbAfter1 : DB := (register (some "p1") (some "e1") (some "s1") 500 dbOpen).2

/-- State after `p2` also registers: the occurrence is now full. -/
def dbAfter2 : DB := (register (some "p2") (some "e1") (some "s1") 500 dbAfter1).2

/-- The occurrence row as it stands in `dbAfter2`: count 2 of 2. -/
def occFull : EventOccurrence :=
  { Event_ID := "e1", EventDateTimeStart := "s1",
    EventRegistrationDeadline := some 1000, EventCapacity := 2,
    EventNumRegistered := 2 }

/-- Witness for C3, running the spec's scenario: capacity 2, count 0,
deadline ahead; `p1` and `p2` register with counts 1 then 2, and `p3`
is refused with the capacity error while the count stays 2 (the third
step is the theorem `c3_capacity_exceeded` applied at this store). -/
theorem c3_capacity_exceeded_witness :
    (register (some "p1") (some "e1") (some "s1") 500 dbOpen).1
        = .success ∧
    (findOcc "e1" "s1" dbAfter1).map (fun o => o.EventNumRegistered)
        = some 1 ∧
    (register (some "p2") (some "e1") (some "s1") 500 dbAfter1).1
        = .success ∧
    (findOcc "e1" "s1" dbAfter2).map (fun o => o.EventNumRegistered)
        = some 2 ∧
    register (some "p3") (some "e1") (some "s1") 500 dbAfter2
        = (.capacityExceeded, dbAfter2) ∧
    (findOcc "e1" "s1" dbAfter2).map (fun o => o.EventNumRegistered)
        = some 2 := by
  refine ⟨by decide, by decide, by decide, by decide, ?_, by decide⟩
  exact c3_capacity_exceeded "p3" "e1" "s1" 500 dbAfter2 occFull
    (by decide) (by decide) (by decide) (by decide) (by decide) (by decide)

theorem findReg_setCount (p e s e' s' : String) (n : Int) (db : DB) :
    findReg p e s (setCount e' s' n db) = findReg p e s db := rfl

theorem findReg_reg_update (p e s : String) (db : DB)
    (regs : List Registration) :
    findReg p e s { db with registrations := regs } = regs.find? (regMatch p e s) := rfl

/-- C4: for an existing registration, cancelling decrements the
occurrence's count to `max 0 (count - 1)` exactly when the prior status
was not "cancelled", and re-cancelling an already-cancelled
registration succeeds, keeps the status "cancelled", and touches no
occurrence row (no further decrement): the count side effect is
idempotent across repeated cancels. -/
theorem c4_cancel_count_semantics (p e s : String) (db : DB)
    (hp : p ≠ "") (he : e ≠ "") (hs : s ≠ "") :
    (∀ r ev, findReg p e s db = some r →
      r.RegistrationStatus ≠ "cancelled" → findOcc e s db = some ev →
      (updateRegistration (some p) (some e) (some s) (some "cancel") db).1
          = .success ∧
      (findOcc e s (updateRegistration (some p) (some e) (some s)
          (some "cancel") db).2).map (fun o => o.EventNumRegistered)
          = some (max 0 (ev.EventNumRegistered - 1)) ∧
      (findReg p e s (updateRegistration (some p) (some e) (some s)
          (some "cancel") db).2).map (fun x => x.RegistrationStatus)
          = some "cancelled") ∧
    (∀ r, findReg p e s db = some r →
      r.RegistrationStatus = "cancelled" →
      (updateRegistration (some p) (some e) (some s) (some "cancel") db).1
          = .success ∧
      (updateRegistration (some p) (some e) (some s)
          (some "cancel") db).2.occurrences = db.occurrences ∧
      (findReg p e s (updateRegistration (some p) (some e) (some s)
          (some "cancel") db).2).map (fun x => x.RegistrationStatus)
          = some "cancelled") := by
  constructor
  · intro r ev hreg hst hocc
    rw [update_cancel_active_eq p e s db r ev hp he hs hreg hst hocc]
    refine ⟨rfl, ?_, ?_⟩
    · rw [findOcc_setCount, findOcc_reg_update, hocc]
      rfl
    · rw [findReg_setCount, findReg_reg_update, find?_applyUpdate]
      unfold findReg at hreg
      rw [hreg]
      rfl
  · intro r hreg hst
    rw [update_cancel_cancelled_eq p e s db r hp he hs hreg hst]
    refine ⟨rfl, rfl, ?_⟩
    rw [findReg_reg_update, find?_applyUpdate]
    unfold findReg at hreg
    rw [hreg]
    rfl

/-- State after `p1` cancels their registration in `dbDup`. -/
def dbCancelled : DB :=
  (updateRegistration (some "p1") (some "e1") (some "s1") (some "cancel")
    dbDup).2

/-- The row as it stands after the first cancel. -/
def regDupCancelled : Registration :=
  { Participant_ID := "p1", Event_ID := "e1", EventDateTimeStart := "s1",
    RegistrationStatus := "cancelled", RegistrationAttendedFlag := "F",
    RegistrationDate := 0 }

/-- Witness for C4: first cancel of `p1`'s `tbd` registration succeeds
and drops the count from 1 to 0; a second cancel succeeds, keeps the
status "cancelled", and leaves every occurrence row untouched.  Both
conjuncts apply `c4_cancel_count_semantics` at this concrete store. -/
theorem c4_cancel_count_semantics_witness :
    ((updateRegistration (some "p1") (some "e1") (some "s1")
        (some "cancel") dbDup).1 = .success ∧
     (findOcc "e1" "s1" dbCancelled).map (fun o => o.EventNumRegistered)
        = some 0 ∧
     (findReg "p1" "e1" "s1" dbCancelled).map
        (fun x => x.RegistrationStatus) = some "cancelled") ∧
    ((updateRegistration (some "p1") (some "e1") (some "s1")
        (some "cancel") dbCancelled).1 = .success ∧
     (updateRegistration (some "p1") (some "e1") (some "s1")
        (some "cancel") dbCancelled).2.occurrences
        = dbCancelled.occurrences ∧
     (findReg "p1" "e1" "s1" (updateRegistration (some "p1") (some "e1")
        (some "s1") (some "cancel") dbCancelled).2).map
        (fun x => x.RegistrationStatus) = some "cancelled") := by
  constructor
  · have h := (c4_cancel_count_semantics "p1" "e1" "s1" dbDup
      (by decide) (by decide) (by decide)).1 regDup occDup
      (by decide) (by decide) (by decide)
    exact ⟨h.1, h.2.1, h.2.2⟩
  · have h := (c4_cancel_count_semantics "p1" "e1" "s1" dbCancelled
      (by decide) (by decide) (by decide)).2 regDupCancelled
      (by decide) (by decide)
    exact ⟨h.1, h.2.1, h.2.2⟩

/-- C5 counterexample: a `register` call can pass all four validations
(fields present, occurrence found, deadline not passed, count below
capacity) and still NOT produce the claimed effect: when a registration
row with the same composite key already exists, the store-level unique
constraint makes the insert throw, the route answers the generic 500,
and nothing is inserted or incremented. -/
theorem c5_duplicate_passes_validations_but_fails :
    fieldMissing (some "p1") = false ∧
    findOcc "e1" "s1" dbDup = some occDup ∧
    ¬ (500 : Int) > occDup.EventRegistrationDeadline.getD 0 ∧
    ¬ occDup.EventNumRegistered ≥ occDup.EventCapacity ∧
    register (some "p1") (some "e1") (some "s1") 500 dbDup
        = (.storeError, dbDup) := by decide

/-- C5 (amended): for every `register` call that passes the four
validations AND for which no registration row with the same composite
key exists, the effect is exactly as claimed: a row with status "tbd",
attended-flag "F" and creation timestamp `now` is appended (the fields
of `newRegRow`), the occurrence's registered-count is incremented by
one, and the call returns the bare success result. -/
theorem c5_register_effect (p e s : String) (now : Int) (db : DB)
    (ev : EventOccurrence)
    (hp : p ≠ "") (he : e ≠ "") (hs : s ≠ "")
    (hocc : findOcc e s db = some ev)
    (hdl : ¬ now > ev.EventRegistrationDeadline.getD 0)
    (hcap : ev.EventNumRegistered < ev.EventCapacity)
    (hdup : findReg p e s db = none) :
    (register (some p) (some e) (some s) now db).1 = .success ∧
    (register (some p) (some e) (some s) now db).2.registrations
        = db.registrations ++ [newRegRow p e s now] ∧
    (findOcc e s (register (some p) (some e) (some s) now db).2).map
        (fun o => o.EventNumRegistered)
        = some (ev.EventNumRegistered + 1) := by
  rw [register_success_eq p e s now db ev hp he hs hocc hdl
    (not_le.mpr hcap) hdup]
  refine ⟨rfl, rfl, ?_⟩
  rw [findOcc_incrementCount, findOcc_reg_update, hocc]
  rfl

/-- Witness for C5 (amended): `p1` registering into the empty open
occurrence at time 500 appends exactly the `tbd`/`F`/timestamp-500 row
and lifts the count to 1. -/
theorem c5_register_effect_witness :
    (register (some "p1") (some "e1") (some "s1") 500 dbOpen).1
        = .success ∧
    (register (some "p1") (some "e1") (some "s1") 500 dbOpen).2.registrations
        = dbOpen.registrations ++ [newRegRow "p1" "e1" "s1" 500] ∧
    (findOcc "e1" "s1" (register (some "p1") (some "e1") (some "s1") 500
        dbOpen).2).map (fun o => o.EventNumRegistered) = some 1 :=
  c5_register_effect "p1" "e1" "s1" 500 dbOpen occOpen (by decide)
    (by decide) (by decide) (by decide) (by decide) (by decide) (by decide)

/-- C6: `register` runs its four validations in the fixed order
missing-fields, occurrence-existence, deadline, capacity, each with its
own distinct failure result; in particular the third conjunct makes no
assumption on capacity or count, so an occurrence whose deadline lies in
the past always yields the deadline failure and the capacity check is
never reached. -/
theorem c6_validation_order (pid eid start : Option String) (now : Int)
    (db : DB) :
    ((fieldMissing pid || fieldMissing eid || fieldMissing start) = true →
      register pid eid start now db = (.missingFields, db)) ∧
    (fieldMissing pid = false → fieldMissing eid = false →
      fieldMissing start = false →
      findOcc (eid.getD "") (start.getD "") db = none →
      register pid eid start now db = (.occurrenceNotFound, db)) ∧
    (∀ ev, fieldMissing pid = false → fieldMissing eid = false →
      fieldMissing start = false →
      findOcc (eid.getD "") (start.getD "") db = some ev →
      now > ev.EventRegistrationDeadline.getD 0 →
      register pid eid start now db = (.deadlineExpired, db)) ∧
    (∀ ev, fieldMissing pid = false → fieldMissing eid = false →
      fieldMissing start = false →
      findOcc (eid.getD "") (start.getD "") db = some ev →
      ¬ now > ev.EventRegistrationDeadline.getD 0 →
      ev.EventNumRegistered ≥ ev.EventCapacity →
      register pid eid start now db = (.capacityExceeded, db)) := by
  refine ⟨?_, ?_, ?_, ?_⟩
  · intro h
    simp only [register, h, if_true]
  · intro hp he hs hocc
    simp only [register, hp, he, hs, Bool.or_self, Bool.or_false,
      Bool.false_eq_true, if_false, hocc]
  · intro ev hp he hs hocc hdl
    simp only [register, hp, he, hs, Bool.or_self, Bool.or_false,
      Bool.false_eq_true, if_false, hocc, if_pos hdl]
  · intro ev hp he hs hocc hdl hcap
    simp only [register, hp, he, hs, Bool.or_self, Bool.or_false,
      Bool.false_eq_true, if_false, hocc, if_neg hdl, if_pos hcap]

/-- An occurrence whose deadline already passed but with seats free. -/
def occPastDeadline : EventOccurrence :=
  { Event_ID := "e1", EventDateTimeStart := "s1",
    EventRegistrationDeadline := some 100, EventCapacity := 10,
    EventNumRegistered := 0 }

/-- Store holding only the past-deadline occurrence. -/
def dbPastDeadline : DB :=
  { occurrences := [occPastDeadline], registrations := [] }

/-- Store where the open occurrence is already full. -/
def dbFull : DB := { occurrences := [occFull], registrations := [] }

/-- Witness for C6, exercising each validation at a concrete input: a
missing participant id, an unknown occurrence key, a past deadline with
nine of ten seats free, and a full occurrence before the deadline. -/
theorem c6_validation_order_witness :
    register none (some "e1") (some "s1") 500 dbOpen
        = (.missingFields, dbOpen) ∧
    register (some "p1") (some "e2") (some "s1") 500 dbOpen
        = (.occurrenceNotFound, dbOpen) ∧
    register (some "p1") (some "e1") (some "s1") 500 dbPastDeadline
        = (.deadlineExpired, dbPastDeadline) ∧
    register (some "p1") (some "e1") (some "s1") 500 dbFull
        = (.capacityExceeded, dbFull) := by
  refine ⟨?_, ?_, ?_, ?_⟩
  · exact (c6_validation_order none (some "e1") (some "s1") 500 dbOpen).1
      (by decide)
  · exact (c6_validation_order (some "p1") (some "e2") (some "s1") 500
      dbOpen).2.1 (by decide) (by decide) (by decide) (by decide)
  · exact (c6_validation_order (some "p1") (some "e1") (some "s1") 500
      dbPastDeadline).2.2.1 occPastDeadline (by decide) (by decide)
      (by decide) (by decide) (by decide)
  · exact (c6_validation_order (some "p1") (some "e1") (some "s1") 500
      dbFull).2.2.2 occFull (by decide) (by decide) (by decide)
      (by decide) (by decide) (by decide)

/-- C7: an `updateRegistration` call whose action is none of "attended",
"absent", "cancel" (identifiers present) fails with the invalid-action
response and returns the store exactly as it was: no Registration row
and no EventOccurrence row is changed. -/
theorem c7_invalid_action (pid eid start action : Option String) (db : DB)
    (hp : fieldMissing pid = false) (he : fieldMissing eid = false)
    (hs : fieldMissing start = false)
    (h1 : action ≠ some "attended") (h2 : action ≠ some "absent")
    (h3 : action ≠ some "cancel") :
    updateRegistration pid eid start action db = (.invalidAction, db) := by
  have hact : updateFieldsFor action = none := by
    unfold updateFieldsFor
    simp only [beq_eq_false_iff_ne.mpr h1, beq_eq_false_iff_ne.mpr h2,
      beq_eq_false_iff_ne.mpr h3, Bool.false_eq_true, if_false]
  exact update_invalidAction_eq pid eid start action db hp he hs hact

/-- Witness for C7: action "bogus" on the store holding `p1`'s
registration is rejected with no row mutated. -/
theorem c7_invalid_action_witness :
    updateRegistration (some "p1") (some "e1") (some "s1") (some "bogus")
      dbDup = (.invalidAction, dbDup) :=
  c7_invalid_action (some "p1") (some "e1") (some "s1") (some "bogus")
    dbDup (by decide) (by decide) (by decide) (by decide) (by decide)
    (by decide)

/-- C8: the claim says an update whose key matches no Registration row
fails with a registration-not-found error.  The code instead runs the
(zero-row) UPDATE, skips the cancel reconciliation because
`existingReg` is undefined, and answers `res.redirect('back')` — a
silent success with no mutation, for every valid action.  This theorem
evaluates the embedded handler on an empty registration table. -/
theorem c8_missing_registration_silent_success :
    updateRegistration (some "p1") (some "e1") (some "s1") (some "cancel")
        dbOpen = (.success, dbOpen) ∧
    updateRegistration (some "p1") (some "e1") (some "s1") (some "attended")
        dbOpen = (.success, dbOpen) ∧
    updateRegistration (some "p1") (some "e1") (some "s1") (some "absent")
        dbOpen = (.success, dbOpen) := by decide

/-- C9: the claim says a second `register` for the same (participant,
occurrence) fails with a client-facing duplicate-registration error.
The code has no such response at all: the duplicate INSERT violates the
composite primary key, the thrown store error lands in the `catch`
block, and the route answers the generic 500 ("Server error") — the
embedded `RegisterResult` has no duplicate constructor, only
`storeError`.  The registered-count is left unchanged (the whole store
is returned as it was). -/
theorem c9_duplicate_leaks_store_error :
    findReg "p1" "e1" "s1" dbDup = some regDup ∧
    register (some "p1") (some "e1") (some "s1") 500 dbDup
        = (.storeError, dbDup) := by decide

theorem updateFieldsFor_pairs (action : Option String) (st fl : String)
    (h : updateFieldsFor action = some (st, fl)) :
    (fl = "T" ↔ st = "attended") := by
  unfold updateFieldsFor at h
  split at h
  · obtain ⟨rfl, rfl⟩ : "attended" = st ∧ "T" = fl := by simpa using h
    decide
  · split at h
    · obtain ⟨rfl, rfl⟩ : "no-show" = st ∧ "F" = fl := by simpa using h
      decide
    · split at h
      · obtain ⟨rfl, rfl⟩ : "cancelled" = st ∧ "F" = fl := by simpa using h
        decide
      · simp at h

theorem register_registrations_inv (pid eid start : Option String)
    (now : Int) (db : DB) :
    (register pid eid start now db).2.registrations = db.registrations ∨
    (register pid eid start now db).2.registrations =
      db.registrations ++
        [newRegRow (pid.getD "") (eid.getD "") (start.getD "") now] := by
  simp only [register]
  split
  · exact Or.inl rfl
  · split
    · exact Or.inl rfl
    · split
      · exact Or.inl rfl
      · split
        · exact Or.inl rfl
        · split
          · exact Or.inl rfl
          · rename_i db1 hins
            unfold insertRegistration at hins
            split at hins
            · simp at hins
            · obtain rfl : _ = db1 := Option.some.inj hins
              exact Or.inr rfl

theorem update_registrations_inv (pid eid start action : Option String)
    (db : DB) :
    (updateRegistration pid eid start action db).2.registrations
        = db.registrations ∨
    ∃ st fl, updateFieldsFor action = some (st, fl) ∧
      (fl = "T" ↔ st = "attended") ∧
      (updateRegistration pid eid start action db).2.registrations =
        applyUpdate (pid.getD "") (eid.getD "") (start.getD "") st fl
          db.registrations := by
  simp only [updateRegistration]
  split
  · exact Or.inl rfl
  · split
    · exact Or.inl rfl
    · rename_i st fl heq
      refine Or.inr ⟨st, fl, heq, updateFieldsFor_pairs action st fl heq, ?_⟩
      split
      · split
        · split
          · split
            · rfl
            · rfl
          · rfl
        · rfl
      · rfl

theorem flagInv_applyUpdate (p e s st fl : String)
    (hpair : fl = "T" ↔ st = "attended") (regs : List Registration)
    (h : ∀ r ∈ regs, (r.RegistrationAttendedFlag = "T" ↔
      r.RegistrationStatus = "attended")) :
    ∀ r ∈ applyUpdate p e s st fl regs,
      (r.RegistrationAttendedFlag = "T" ↔
        r.RegistrationStatus = "attended") := by
  unfold applyUpdate
  simp only [List.mem_map]
  rintro r ⟨r0, hr0, rfl⟩
  by_cases hm : regMatch p e s r0 = true
  · rw [if_pos hm]
    exact hpair
  · rw [if_neg hm]
    exact h r0 hr0

/-- C10: the redundant attended-flag never drifts from the status at
the write interface: if every stored row has flag "T" exactly on status
"attended", this still holds after any `register` and any
`updateRegistration` outcome; moreover `register` writes rows as
"tbd"/"F", and the three actions write the pairs
("attended","T"), ("no-show","F"), ("cancelled","F"). -/
theorem c10_flag_status_coupling (pid eid start action : Option String)
    (now : Int) (db : DB) (hflag : FlagInv db) :
    FlagInv (register pid eid start now db).2 ∧
    FlagInv (updateRegistration pid eid start action db).2 ∧
    (newRegRow (pid.getD "") (eid.getD "") (start.getD "")
      now).RegistrationStatus = "tbd" ∧
    (newRegRow (pid.getD "") (eid.getD "") (start.getD "")
      now).RegistrationAttendedFlag = "F" ∧
    updateFieldsFor (some "attended") = some ("attended", "T") ∧
    updateFieldsFor (some "absent") = some ("no-show", "F") ∧
    updateFieldsFor (some "cancel") = some ("cancelled", "F") := by
  refine ⟨?_, ?_, rfl, rfl, updateFieldsFor_attended,
    updateFieldsFor_absent, updateFieldsFor_cancel⟩
  · rcases register_registrations_inv pid eid start now db with hc | hc
    · intro r hr
      rw [hc] at hr
      exact hflag r hr
    · intro r hr
      rw [hc] at hr
      rcases List.mem_append.mp hr with h1 | h2
      · exact hflag r h1
      · have hrw : r = newRegRow (pid.getD "") (eid.getD "")
            (start.getD "") now := by simpa using h2
        subst hrw
        show ("F" = "T" ↔ "tbd" = "attended")
        decide
  · rcases update_registrations_inv pid eid start action db with
      hc | ⟨st, fl, heq, hpair, hc⟩
    · intro r hr
      rw [hc] at hr
      exact hflag r hr
    · intro r hr
      rw [hc] at hr
      exact flagInv_applyUpdate (pid.getD "") (eid.getD "") (start.getD "")
        st fl hpair db.registrations hflag r hr

/-- Witness for C10 at the concrete store `dbDup`: the coupling holds
before and after a fresh registration and after marking attendance. -/
theorem c10_flag_status_coupling_witness :
    FlagInv dbDup ∧
    FlagInv (register (some "p2") (some "e1") (some "s1") 500 dbDup).2 ∧
    FlagInv (updateRegistration (some "p1") (some "e1") (some "s1")
      (some "attended") dbDup).2 := by
  refine ⟨by decide, ?_, ?_⟩
  · exact (c10_flag_status_coupling (some "p2") (some "e1") (some "s1")
      none 500 dbDup (by decide)).1
  · exact (c10_flag_status_coupling (some "p1") (some "e1") (some "s1")
      (some "attended") 500 dbDup (by decide)).2.1
